import Mathlib

/-!
Shallow embedding of the ee-study-log blogging backend (src/1.py): the media
helpers (`allowed_file`, `get_file_type`), werkzeug's `secure_filename` as
called by the app (POSIX separators, ASCII inputs), the `new_post` POST
handler with its file write and persistence effects made explicit, and the
storage-layer reads used by `home` and `post_detail`.

Strings are modelled as `List Char`; Python's `None`-vs-string distinction is
an `Option`, with Python truthiness (`None` and `""` falsy) made explicit.
-/

namespace EEStudyLog

/-- Python truthiness for an optional string: `None` and `""` are falsy. -/
def truthy : Option (List Char) → Bool
  | none => false
  | some s => !s.isEmpty

/-- The suffix of `f` after its last dot: Python `f.rsplit('.', 1)[1]` when
`'.' in f`, and `none` (an `IndexError` in Python) when `f` has no dot. -/
def extAfterLastDot (f : List Char) : Option (List Char) :=
  if '.' ∈ f then some ((f.reverse.takeWhile (fun c => c != '.')).reverse) else none

/-- The allowed upload extensions (`ALLOWED_EXTENSIONS` in src/1.py line 26). -/
def ALLOWED_EXTENSIONS : List (List Char) :=
  ["png".data, "jpg".data, "jpeg".data, "gif".data, "webp".data,
   "mp4".data, "mov".data, "avi".data, "webm".data]

/-- The extensions `get_file_type` classifies as video (src/1.py line 45). -/
def VIDEO_EXTENSIONS : List (List Char) :=
  ["mp4".data, "mov".data, "avi".data, "webm".data]

/-- The allowed extensions that are not video extensions; the spec's image set. -/
def IMAGE_EXTENSIONS : List (List Char) :=
  ["png".data, "jpg".data, "jpeg".data, "gif".data, "webp".data]

/-- Lowercasing of an extension, Python `ext.lower()` (ASCII letters). -/
def lowerExt (e : List Char) : List Char := e.map Char.toLower

/-- src/1.py lines 37-40: a filename is allowed when it contains a dot and the
lowercased suffix after the last dot is in `ALLOWED_EXTENSIONS`. -/
def allowed_file (filename : List Char) : Bool :=
  match extAfterLastDot filename with
  | some e => ALLOWED_EXTENSIONS.contains (lowerExt e)
  | none => false

/-- src/1.py lines 42-47: classify by the lowercased extension; video for the
video set, image otherwise.  `none` models the `IndexError` Python raises on a
filename without a dot (`rsplit('.', 1)[1]` out of range). -/
def get_file_type (filename : List Char) : Option (List Char) :=
  match extAfterLastDot filename with
  | none => none
  | some e =>
    if VIDEO_EXTENSIONS.contains (lowerExt e) then some ("video".data)
    else some ("image".data)

/-- Python `str.split()` whitespace (the ASCII whitespace characters). -/
def isPyWhitespace (c : Char) : Bool :=
  c == ' ' || c == '\t' || c == '\n' || c == '\r' || c == '\x0b' || c == '\x0c'

/-- The characters werkzeug's filename regex keeps: `[A-Za-z0-9_.-]`. -/
def isSafeChar (c : Char) : Bool :=
  c.isAlpha || c.isDigit || c == '_' || c == '.' || c == '-'

/-- A character stripped from both ends by werkzeug: `.strip("._")`. -/
def isStripChar (c : Char) : Bool := c == '.' || c == '_'

/-- Python `s.strip("._")`: drop leading and trailing dots and underscores. -/
def stripEdges (f : List Char) : List Char :=
  ((f.dropWhile isStripChar).reverse.dropWhile isStripChar).reverse

/-- werkzeug `secure_filename` as executed on POSIX for ASCII input: drop
non-ASCII (the NFKD-normalize-then-ascii-encode step is the identity on ASCII
and drops other code points), replace the path separator `/` by a space, split
on whitespace and rejoin with underscores, delete every character outside
`[A-Za-z0-9_.-]`, and strip leading/trailing `.` and `_`.  (The Windows
device-name special case does not apply on POSIX.) -/
def secure_filename (filename : List Char) : List Char :=
  let ascii := filename.filter (fun c => c.toNat < 128)
  let sepReplaced := ascii.map (fun c => if c == '/' then ' ' else c)
  let words := (sepReplaced.splitOnP isPyWhitespace).filter (fun w => !w.isEmpty)
  let joined := List.intercalate ['_'] words
  stripEdges (joined.filter isSafeChar)

/-- A `POST /new` request: `request.form.get` yields `none` when a field is
absent and `some ""` when it is submitted empty; `media_file` is the submitted
file part's filename, `none` when no file part was sent. -/
structure CreateRequest where
  title : Option (List Char)
  topic : Option (List Char)
  content : Option (List Char)
  media_file : Option (List Char)
deriving DecidableEq

/-- A persisted `Post` row as produced by the insert.  `topic` is the value
after SQLAlchemy applies the column default (the default fires exactly when
the attribute is `None`/omitted); the nullable columns stay `Option`. -/
structure PostRecord where
  title : Option (List Char)
  topic : List Char
  content_markdown : Option (List Char)
  media_type : Option (List Char)
  media_filename : Option (List Char)
deriving DecidableEq

/-- Result of the upload-processing block (src/1.py lines 93-108): the
`media_type` and `media_filename` locals, and the filenames written into the
media directory (`UPLOAD_FOLDER`). -/
structure UploadResult where
  media_type : Option (List Char)
  media_filename : Option (List Char)
  written : List (List Char)
deriving DecidableEq

/-- The handler's HTTP response: `redirect(url_for('home'))`, or a 200 render
of `new_post.html` with an optional error message. -/
inductive Response
  | redirectHome : Response
  | formPage : Option (List Char) → Response
deriving DecidableEq

/-- The observable outcome of one `POST /new` request: the response, the Post
row persisted (if any), and the files written to the media directory. -/
structure Outcome where
  response : Response
  persisted : Option PostRecord
  filesWritten : List (List Char)
deriving DecidableEq

/-- The error message of src/1.py line 125 (validation failure). -/
def VALIDATION_MSG : List Char := "请至少填写标题，并输入内容或上传文件。".data

/-- The error message of src/1.py line 129 (caught exception). -/
def FAILURE_MSG (e : List Char) : List Char := "发布失败: ".data ++ e

/-- The `topic` column default `'生活'` (src/1.py line 54): SQLAlchemy applies a
column default when the attribute is omitted or `None`; any other value —
including the empty string — is stored as given. -/
def applyTopicDefault : Option (List Char) → List Char
  | none => "生活".data
  | some s => s

/-- src/1.py lines 93-108, the upload block, with `tok` standing for the
`uuid.uuid4().hex[:8]` random token.  The guard is line 96 (`file` truthy,
non-empty filename, `allowed_file`).  Line 99 evaluates
`original_filename.rsplit('.', 1)[1]` before the save, so a sanitized name
without a dot raises `IndexError` (the `.error` case) before any file write;
otherwise `file.save` writes `unique_name` and line 108 classifies it.  The
second `.error` case mirrors a potential `IndexError` in `get_file_type`; it
is unreachable because the line-99 split already succeeded. -/
def processUpload (tok : List Char) (mediaFile : Option (List Char)) :
    Except (List Char) UploadResult :=
  match mediaFile with
  | none => .ok ⟨none, none, []⟩
  | some fn =>
    if !fn.isEmpty && allowed_file fn then
      let original := secure_filename fn
      match extAfterLastDot original with
      | none => .error ("IndexError".data)
      | some _ =>
        let unique := tok ++ '_' :: original
        match get_file_type unique with
        | none => .error ("IndexError".data)
        | some t => .ok ⟨some t, some unique, [unique]⟩
    else .ok ⟨none, none, []⟩

/-- src/1.py lines 83-129, the POST branch of `new_post`: process the upload,
then persist only when `title and (content or media_filename)` holds (Python
truthiness); on success redirect to `/`; on validation failure render the form
with the validation message; a caught exception renders the form with the
failure message. -/
def new_post (tok : List Char) (req : CreateRequest) : Outcome :=
  match processUpload tok req.media_file with
  | .error e => ⟨.formPage (some (FAILURE_MSG e)), none, []⟩
  | .ok u =>
    if truthy req.title && (truthy req.content || truthy u.media_filename) then
      ⟨.redirectHome,
       some ⟨req.title, applyTopicDefault req.topic, req.content,
             u.media_type, u.media_filename⟩,
       u.written⟩
    else ⟨.formPage (some VALIDATION_MSG), none, u.written⟩

/-- Whether the line-96 guard takes the upload branch for this request. -/
def fileBranch (req : CreateRequest) : Bool :=
  match req.media_file with
  | none => false
  | some fn => !fn.isEmpty && allowed_file fn

/-- A request violating the spec's Post invariant: falsy title, or falsy
content together with no acceptable media file. -/
def violatesInvariant (req : CreateRequest) : Prop :=
  truthy req.title = false ∨ (truthy req.content = false ∧ fileBranch req = false)

/-- A stored `Post` row with its primary key and creation timestamp. -/
structure Row where
  id : Nat
  date_posted : Nat
  post : PostRecord
deriving DecidableEq

/-- `db.session.get(Post, post_id)` (src/1.py line 138): point lookup by
primary key, `none` when no row matches. -/
def getPost (s : List Row) (i : Nat) : Option Row :=
  s.find? (fun r => r.id == i)

/-- Descending insertion by `date_posted` (later timestamps first). -/
def insertDesc (p : Row) : List Row → List Row
  | [] => [p]
  | q :: rest =>
    if q.date_posted ≤ p.date_posted then p :: q :: rest else q :: insertDesc p rest

/-- src/1.py lines 71-76: `Post.query.order_by(Post.date_posted.desc()).all()`
— the stored rows sorted by `date_posted` descending. -/
def home : List Row → List Row
  | [] => []
  | p :: rest => insertDesc p (home rest)

/-- The detail page's response: 404 via `abort(404)`, or a 200 render of
`detail.html` with the post and its rendered markdown. -/
inductive DetailResponse
  | notFound : DetailResponse
  | page : Row → List Char → DetailResponse
deriving DecidableEq

/-- src/1.py lines 134-146: look the post up by id; absent → `abort(404)`;
otherwise render markdown (`md`, the external renderer) of the content when it
is truthy, `""` otherwise. -/
def post_detail (md : List Char → List Char) (s : List Row) (i : Nat) :
    DetailResponse :=
  match getPost s i with
  | none => .notFound
  | some r =>
    .page r (match r.post.content_markdown with
             | some c => if c.isEmpty then [] else md c
             | none => [])

/-- A lowercase hexadecimal digit — the alphabet of `uuid.uuid4().hex`, from
which the 8-character random token is drawn. -/
def isHexLowerDigit (c : Char) : Bool :=
  c.isDigit || (97 ≤ c.toNat && c.toNat ≤ 102)

/-- The listing order relation: `a` is at least as recent as `b`. -/
def dateGe (a b : Row) : Prop := b.date_posted ≤ a.date_posted

/-! Helper lemmas about the embedded string operations. -/

theorem takeWhile_append_stop {α : Type} (p : α → Bool) (a : α) (l m : List α)
    (hl : ∀ c ∈ l, p c = true) (ha : p a = false) :
    (l ++ a :: m).takeWhile p = l := by
  induction l with
  | nil => simp [List.takeWhile_cons, ha]
  | cons x xs ih =>
    have hx : p x = true := hl x (by simp)
    simp [List.takeWhile_cons, hx, ih (fun c hc => hl c (by simp [hc]))]

/-- The extension extractor on a filename of the shape `base ++ "." ++ e`
with no dot in `e` returns exactly `e`. -/
theorem ext_append_eq (base e : List Char) (h : '.' ∉ e) :
    extAfterLastDot (base ++ '.' :: e) = some e := by
  have hl : ∀ c ∈ e.reverse, (c != '.') = true := by
    intro c hc
    have hce : c ∈ e := List.mem_reverse.mp hc
    have hne : c ≠ '.' := fun hEq => h (hEq ▸ hce)
    simpa [bne_iff_ne] using hne
  have ha : (('.' : Char) != '.') = false := by decide
  have hmem : '.' ∈ base ++ '.' :: e :=
    List.mem_append.mpr (Or.inr (List.mem_cons_self _ _))
  have hrev : (base ++ '.' :: e).reverse = e.reverse ++ '.' :: base.reverse := by
    simp
  unfold extAfterLastDot
  rw [if_pos hmem, hrev, takeWhile_append_stop _ '.' e.reverse base.reverse hl ha,
    List.reverse_reverse]

theorem mem_of_mem_dropWhile {α : Type} {p : α → Bool} {c : α} :
    ∀ {l : List α}, c ∈ l.dropWhile p → c ∈ l := by
  intro l
  induction l with
  | nil => intro h; simp at h
  | cons x xs ih =>
    intro h
    rw [List.dropWhile_cons] at h
    by_cases hx : p x = true
    · simp only [hx, if_true] at h
      exact List.mem_cons_of_mem _ (ih h)
    · simp only [hx, if_false] at h
      exact h

theorem mem_of_mem_stripEdges {c : Char} {l : List Char} (h : c ∈ stripEdges l) :
    c ∈ l := by
  unfold stripEdges at h
  have h1 := List.mem_reverse.mp h
  have h2 := mem_of_mem_dropWhile h1
  have h3 := List.mem_reverse.mp h2
  exact mem_of_mem_dropWhile h3

/-- Every character surviving `secure_filename` is in werkzeug's safe class
`[A-Za-z0-9_.-]`; in particular no path separator survives. -/
theorem mem_secure_filename_safe {c : Char} {f : List Char}
    (h : c ∈ secure_filename f) : isSafeChar c = true := by
  simp only [secure_filename] at h
  exact (List.mem_filter.mp (mem_of_mem_stripEdges h)).2

/-- The line-96 guard being false means the upload block produces no media
and writes nothing. -/
theorem processUpload_of_not_fileBranch (tok : List Char) (req : CreateRequest)
    (h : fileBranch req = false) :
    processUpload tok req.media_file = .ok ⟨none, none, []⟩ := by
  unfold processUpload
  cases hm : req.media_file with
  | none => rfl
  | some fn =>
    have hg : (!fn.isEmpty && allowed_file fn) = false := by
      unfold fileBranch at h
      rw [hm] at h
      exact h
    simp [hg]

theorem truthy_none : truthy (none : Option (List Char)) = false := rfl

theorem allowed_eq_append :
    ALLOWED_EXTENSIONS = IMAGE_EXTENSIONS ++ VIDEO_EXTENSIONS := by decide

theorem not_video_of_image {x : List Char} (hx : x ∈ IMAGE_EXTENSIONS) :
    VIDEO_EXTENSIONS.contains x = false := by
  fin_cases hx <;> decide

theorem video_contains_of_mem {x : List Char} (hx : x ∈ VIDEO_EXTENSIONS) :
    VIDEO_EXTENSIONS.contains x = true := by
  fin_cases hx <;> decide

theorem not_mem_video_of_image {x : List Char} (hx : x ∈ IMAGE_EXTENSIONS) :
    x ∉ VIDEO_EXTENSIONS := by
  fin_cases hx <;> decide

theorem allowed_file_eq (f e : List Char) (he : extAfterLastDot f = some e) :
    allowed_file f = ALLOWED_EXTENSIONS.contains (lowerExt e) := by
  unfold allowed_file
  rw [he]

theorem get_file_type_eq (f e : List Char) (he : extAfterLastDot f = some e) :
    get_file_type f =
      (if VIDEO_EXTENSIONS.contains (lowerExt e) then some ("video".data)
       else some ("image".data)) := by
  unfold get_file_type
  rw [he]

/-- Shape of a successful upload-block run: either no media at all and no file
written, or both media fields set and exactly the unique name written; the
media fields are set from an accepted raw filename. -/
theorem processUpload_ok_shape (tok : List Char) (mf : Option (List Char))
    (u : UploadResult) (h : processUpload tok mf = .ok u) :
    u = ⟨none, none, []⟩ ∨
    ∃ fn t, mf = some fn ∧ fn.isEmpty = false ∧ allowed_file fn = true ∧
      u = ⟨some t, some (tok ++ '_' :: secure_filename fn),
           [tok ++ '_' :: secure_filename fn]⟩ := by
  cases mf with
  | none =>
    simp only [processUpload] at h
    injection h with h2
    left
    exact h2.symm
  | some fn =>
    simp only [processUpload] at h
    by_cases hg : (!fn.isEmpty && allowed_file fn) = true
    · rw [if_pos hg] at h
      cases he : extAfterLastDot (secure_filename fn) with
      | none => simp only [he] at h; injection h
      | some e =>
        simp only [he] at h
        cases ht : get_file_type (tok ++ '_' :: secure_filename fn) with
        | none => simp only [ht] at h; injection h
        | some t =>
          simp only [ht] at h
          injection h with h2
          right
          refine ⟨fn, t, rfl, ?_, ((Bool.and_eq_true _ _).mp hg).2, h2.symm⟩
          have := ((Bool.and_eq_true _ _).mp hg).1
          simpa using this
    · rw [if_neg hg] at h
      injection h with h2
      left
      exact h2.symm

theorem perm_insertDesc (p : Row) (l : List Row) : (insertDesc p l).Perm (p :: l) := by
  induction l with
  | nil => exact List.Perm.refl _
  | cons q rest ih =>
    unfold insertDesc
    by_cases h : q.date_posted ≤ p.date_posted
    · rw [if_pos h]
    · rw [if_neg h]
      exact (List.Perm.cons q ih).trans (List.Perm.swap p q rest)

theorem perm_home (s : List Row) : (home s).Perm s := by
  induction s with
  | nil => exact List.Perm.refl _
  | cons p rest ih => exact (perm_insertDesc p (home rest)).trans (List.Perm.cons p ih)

theorem sorted_insertDesc (p : Row) (l : List Row)
    (hl : List.Pairwise dateGe l) : List.Pairwise dateGe (insertDesc p l) := by
  induction l with
  | nil => simp [insertDesc]
  | cons q rest ih =>
    rcases List.pairwise_cons.mp hl with ⟨hq, hrest⟩
    unfold insertDesc
    by_cases h : q.date_posted ≤ p.date_posted
    · rw [if_pos h]
      refine List.pairwise_cons.mpr ⟨?_, hl⟩
      intro b hb
      rcases List.mem_cons.mp hb with hbq | hbr
      · exact hbq ▸ h
      · exact le_trans (hq b hbr) h
    · rw [if_neg h]
      refine List.pairwise_cons.mpr ⟨?_, ih hrest⟩
      intro b hb
      rcases List.mem_cons.mp ((perm_insertDesc p rest).subset hb) with hbp | hbr
      · exact hbp ▸ le_of_lt (Nat.lt_of_not_le h)
      · exact hq b hbr

theorem sorted_home (s : List Row) : List.Pairwise dateGe (home s) := by
  induction s with
  | nil => exact List.Pairwise.nil
  | cons p rest ih => exact sorted_insertDesc p (home rest) ih

/-! The claims. -/

/-- C2: media classification is deterministic and exactly the spec's mapping —
an extension lowercasing into the image set is accepted and classified image,
one in the video set video, any other extension is not accepted, and a
filename without an extension is not accepted; an unaccepted filename in a
create request leads to no media fields and no file written. -/
theorem C2_extension_mapping (f : List Char) :
    (extAfterLastDot f = none → allowed_file f = false) ∧
    (∀ e, extAfterLastDot f = some e →
      ((allowed_file f = true) ↔
        (lowerExt e ∈ IMAGE_EXTENSIONS ∨ lowerExt e ∈ VIDEO_EXTENSIONS)) ∧
      (lowerExt e ∈ IMAGE_EXTENSIONS → get_file_type f = some ("image".data)) ∧
      (lowerExt e ∈ VIDEO_EXTENSIONS → get_file_type f = some ("video".data))) ∧
    (∀ tok req, req.media_file = some f → allowed_file f = false →
      (new_post tok req).filesWritten = [] ∧
      ∀ p, (new_post tok req).persisted = some p →
        p.media_type = none ∧ p.media_filename = none) := by
  refine ⟨?_, ?_, ?_⟩
  · intro h
    unfold allowed_file
    rw [h]
  · intro e he
    refine ⟨?_, ?_, ?_⟩
    · rw [allowed_file_eq f e he, allowed_eq_append]
      simp
    · intro hx
      rw [get_file_type_eq f e he]
      simp only [ite_eq_right_iff]
      intro hmem
      rw [not_video_of_image hx] at hmem
      exact Bool.noConfusion hmem
    · intro hx
      rw [get_file_type_eq f e he]
      simp only [ite_eq_left_iff]
      intro hmem
      exact absurd (video_contains_of_mem hx) hmem
  · intro tok req hm hall
    have hfb : fileBranch req = false := by
      unfold fileBranch
      rw [hm]
      simp [hall]
    have hpu := processUpload_of_not_fileBranch tok req hfb
    simp only [new_post, hpu]
    constructor
    · split <;> rfl
    · intro p hp
      split at hp
      · injection hp with h2
        rw [← h2]
        exact ⟨rfl, rfl⟩
      · injection hp

/-- C2 witness at a concrete input: a jpeg is accepted and classified image. -/
theorem C2_extension_mapping_witness :
    get_file_type ("photo.JPEG".data) = some ("image".data) :=
  ((C2_extension_mapping ("photo.JPEG".data)).2.1 ("JPEG".data) (by decide)).2.1 (by decide)

/-- C5: a lookup of an id with no matching row yields the explicit absent
signal, and the detail handler answers exactly those requests with the 404
response — for every store, id and markdown renderer, with no exception. -/
theorem C5_not_found (md : List Char → List Char) (s : List Row) (i : Nat) :
    getPost s i = none ↔ post_detail md s i = .notFound := by
  unfold post_detail
  cases h : getPost s i with
  | none => simp
  | some r => simp

/-- C5 witness: id 9999 on an empty store produces the 404 response. -/
theorem C5_not_found_witness :
    post_detail (fun c => c) [] 9999 = .notFound :=
  (C5_not_found (fun c => c) [] 9999).mp rfl

/-- C6: the listing is a reordering of the stored posts sorted by
`date_posted` descending; in particular three posts created at increasing
timestamps are listed newest first. -/
theorem C6_listing_order :
    (∀ s : List Row, (home s).Perm s ∧ List.Pairwise dateGe (home s)) ∧
    (∀ r1 r2 r3 : Row, r1.date_posted < r2.date_posted →
      r2.date_posted < r3.date_posted → home [r1, r2, r3] = [r3, r2, r1]) := by
  refine ⟨fun s => ⟨perm_home s, sorted_home s⟩, ?_⟩
  intro r1 r2 r3 h12 h23
  have h13 : r1.date_posted < r3.date_posted := lt_trans h12 h23
  simp [home, insertDesc, Nat.not_le.mpr h12, Nat.not_le.mpr h23, Nat.not_le.mpr h13]

/-- C6 witness: three concrete posts at timestamps 10 < 20 < 30 come back in
the order 30, 20, 10. -/
theorem C6_listing_order_witness :
    home [⟨1, 10, ⟨some ("a".data), "x".data, none, none, none⟩⟩,
          ⟨2, 20, ⟨some ("b".data), "x".data, none, none, none⟩⟩,
          ⟨3, 30, ⟨some ("c".data), "x".data, none, none, none⟩⟩] =
      [⟨3, 30, ⟨some ("c".data), "x".data, none, none, none⟩⟩,
       ⟨2, 20, ⟨some ("b".data), "x".data, none, none, none⟩⟩,
       ⟨1, 10, ⟨some ("a".data), "x".data, none, none, none⟩⟩] :=
  C6_listing_order.2 _ _ _ (by decide) (by decide)

/-- C9: `get_file_type` fails exactly on filenames without a dot; whenever
`allowed_file` holds it totally returns image or video; and in isolation it
never rejects — any extension outside the video set, allowed or not, is
classified image. -/
theorem C9_get_file_type_partiality (f : List Char) :
    (get_file_type f = none ↔ '.' ∉ f) ∧
    (allowed_file f = true →
      get_file_type f = some ("image".data) ∨ get_file_type f = some ("video".data)) ∧
    (∀ e, extAfterLastDot f = some e →
      VIDEO_EXTENSIONS.contains (lowerExt e) = false →
      get_file_type f = some ("image".data)) := by
  by_cases hd : '.' ∈ f
  · obtain ⟨e, he⟩ : ∃ e, extAfterLastDot f = some e := by
      unfold extAfterLastDot
      rw [if_pos hd]
      exact ⟨_, rfl⟩
    refine ⟨?_, ?_, ?_⟩
    · rw [get_file_type_eq f e he]
      constructor
      · intro h
        split at h <;> injection h
      · intro h
        exact absurd hd h
    · intro _
      rw [get_file_type_eq f e he]
      split
      · exact Or.inr rfl
      · exact Or.inl rfl
    · intro e2 he2 hv
      rw [get_file_type_eq f e2 he2]
      simp only [ite_eq_right_iff]
      intro hmem
      rw [hv] at hmem
      exact Bool.noConfusion hmem
  · have hnone : extAfterLastDot f = none := by
      unfold extAfterLastDot
      rw [if_neg hd]
    refine ⟨?_, ?_, ?_⟩
    · unfold get_file_type
      rw [hnone]
      simp [hd]
    · intro hall
      unfold allowed_file at hall
      rw [hnone] at hall
      exact absurd hall (by simp)
    · intro e2 he2
      rw [hnone] at he2
      exact absurd he2 (by simp)

/-- C9 witness: a disallowed extension is still classified image in
isolation, and an allowed filename is classified totally. -/
theorem C9_get_file_type_partiality_witness :
    get_file_type ("script.exe".data) = some ("image".data) :=
  (C9_get_file_type_partiality ("script.exe".data)).2.2 ("exe".data) (by decide) (by decide)

/-- C10: acceptance and classification are invariant under changing the
letter case of the extension, and the uppercase examples PHOTO.PNG and
MOVIE.MP4 are accepted as image and video respectively. -/
theorem C10_case_insensitive :
    (∀ base e1 e2 : List Char, '.' ∉ e1 → '.' ∉ e2 → lowerExt e1 = lowerExt e2 →
      allowed_file (base ++ '.' :: e1) = allowed_file (base ++ '.' :: e2) ∧
      get_file_type (base ++ '.' :: e1) = get_file_type (base ++ '.' :: e2)) ∧
    allowed_file ("PHOTO.PNG".data) = true ∧
    get_file_type ("PHOTO.PNG".data) = some ("image".data) ∧
    allowed_file ("MOVIE.MP4".data) = true ∧
    get_file_type ("MOVIE.MP4".data) = some ("video".data) := by
  refine ⟨?_, by decide, by decide, by decide, by decide⟩
  intro base e1 e2 h1 h2 hl
  rw [allowed_file_eq _ e1 (ext_append_eq base e1 h1),
    allowed_file_eq _ e2 (ext_append_eq base e2 h2),
    get_file_type_eq _ e1 (ext_append_eq base e1 h1),
    get_file_type_eq _ e2 (ext_append_eq base e2 h2), hl]
  exact ⟨rfl, rfl⟩

/-- C10 witness: changing the case of a png extension does not change
acceptance. -/
theorem C10_case_insensitive_witness :
    allowed_file ("photo".data ++ '.' :: "PNG".data) =
      allowed_file ("photo".data ++ '.' :: "png".data) :=
  (C10_case_insensitive.1 ("photo".data) ("PNG".data) ("png".data) (by decide) (by decide)
    (by decide)).1

/-- C1 as stated is false: this invariant-violating request (falsy title)
carrying an allowed media file still has the file written into the media
directory, even though the create is rejected and no row is persisted. -/
theorem C1_counterexample :
    violatesInvariant ⟨some [], none, none, some ("a.png".data)⟩ ∧
    (new_post ("deadbeef".data) ⟨some [], none, none, some ("a.png".data)⟩).persisted = none ∧
    (new_post ("deadbeef".data) ⟨some [], none, none, some ("a.png".data)⟩).filesWritten =
      ["deadbeef_a.png".data] := by
  refine ⟨Or.inl (by decide), by decide, by decide⟩

/-- C1 amended: every invariant-violating request is answered with the form
plus an error message and no Post row is persisted; no file is written when
the request carries no acceptable media file — but an acceptable media file
in a violating request is written before the validation check runs. -/
theorem C1_validation_rejection (tok : List Char) (req : CreateRequest)
    (h : violatesInvariant req) :
    (∃ m, (new_post tok req).response = .formPage (some m)) ∧
    (new_post tok req).persisted = none ∧
    (fileBranch req = false → (new_post tok req).filesWritten = []) := by
  rcases h with ht | ⟨hc, hfb⟩
  · cases hpu : processUpload tok req.media_file with
    | error e =>
      have hr : new_post tok req = ⟨.formPage (some (FAILURE_MSG e)), none, []⟩ := by
        simp [new_post, hpu]
      rw [hr]
      exact ⟨⟨_, rfl⟩, rfl, fun _ => rfl⟩
    | ok u =>
      have hcond :
          (truthy req.title && (truthy req.content || truthy u.media_filename)) = false := by
        rw [ht]
        rfl
      have hr : new_post tok req = ⟨.formPage (some VALIDATION_MSG), none, u.written⟩ := by
        simp [new_post, hpu, hcond]
      rw [hr]
      refine ⟨⟨_, rfl⟩, rfl, ?_⟩
      intro hf
      have hok := processUpload_of_not_fileBranch tok req hf
      rw [hok] at hpu
      injection hpu with h2
      rw [← h2]
  · have hpu := processUpload_of_not_fileBranch tok req hfb
    have hr : new_post tok req = ⟨.formPage (some VALIDATION_MSG), none, []⟩ := by
      simp [new_post, hpu, hc, truthy_none]
    rw [hr]
    exact ⟨⟨_, rfl⟩, rfl, fun _ => rfl⟩

/-- C1 witness: an all-empty request is rejected with no row persisted. -/
theorem C1_validation_rejection_witness :
    (new_post ("ab".data) ⟨none, none, none, none⟩).persisted = none :=
  (C1_validation_rejection ("ab".data) ⟨none, none, none, none⟩ (Or.inl (by decide))).2.1

/-- C3: every Post produced by the create operation has `media_type` and
`media_filename` both present or both absent; a valid request with truthy
title and content and no submitted file yields a post with both absent. -/
theorem C3_media_pairing (tok : List Char) (req : CreateRequest) :
    (∀ p, (new_post tok req).persisted = some p →
      p.media_type.isSome = p.media_filename.isSome) ∧
    (req.media_file = none → truthy req.title = true → truthy req.content = true →
      ∃ p, (new_post tok req).persisted = some p ∧
        p.media_type = none ∧ p.media_filename = none) := by
  constructor
  · intro p hp
    cases hpu : processUpload tok req.media_file with
    | error e =>
      simp only [new_post, hpu] at hp
      injection hp
    | ok u =>
      simp only [new_post, hpu] at hp
      split at hp
      · injection hp with h2
        rcases processUpload_ok_shape tok req.media_file u hpu with h0 | ⟨fn, t, _, _, _, hu⟩
        · rw [← h2, h0]
        · rw [← h2, hu]
          rfl
      · injection hp
  · intro hm ht hc
    have hpu : processUpload tok req.media_file = .ok ⟨none, none, []⟩ := by
      rw [hm]
      rfl
    refine ⟨⟨req.title, applyTopicDefault req.topic, req.content, none, none⟩, ?_, rfl, rfl⟩
    simp [new_post, hpu, ht, hc]

/-- C3 witness: a text-only request persists a post with both media fields
absent. -/
theorem C3_media_pairing_witness :
    ∃ p, (new_post ("ab".data) ⟨some ("t".data), none, some ("c".data), none⟩).persisted = some p ∧
      p.media_type = none ∧ p.media_filename = none :=
  (C3_media_pairing ("ab".data) ⟨some ("t".data), none, some ("c".data), none⟩).2 rfl
    (by decide) (by decide)

/-- C4 as stated is false at the spec's own scenario: sanitization keeps path
components joined by underscores rather than stripping them, so the upload
`../../etc/passwd.png` is stored as `<token>_etc_passwd.png`, not as the
8-character token followed by `passwd.png`. -/
theorem C4_counterexample :
    secure_filename ("../../etc/passwd.png".data) ≠ "passwd.png".data ∧
    (new_post ("deadbeef".data)
        ⟨some ("t".data), none, none, some ("../../etc/passwd.png".data)⟩).filesWritten =
      ["deadbeef_etc_passwd.png".data] ∧
    "deadbeef_etc_passwd.png".data ≠ "deadbeef".data ++ "passwd.png".data := by
  refine ⟨by decide, by decide, by decide⟩

/-- C4 amended: every file the handler writes is named token, underscore,
sanitized raw filename of an accepted upload — sanitization keeping path
components as underscore-joined text — and with the token drawn from the
lowercase hex alphabet the stored name contains no path separator, so the
write stays inside the configured media directory; the passwd.png scenario
stores `<token>_etc_passwd.png`, classified image. -/
theorem C4_stored_names (tok : List Char) (req : CreateRequest)
    (htok : ∀ c ∈ tok, isHexLowerDigit c = true) :
    (∀ u ∈ (new_post tok req).filesWritten,
      (∃ fn, req.media_file = some fn ∧ allowed_file fn = true ∧
        u = tok ++ '_' :: secure_filename fn) ∧ '/' ∉ u) ∧
    secure_filename ("../../etc/passwd.png".data) = "etc_passwd.png".data ∧
    get_file_type ("deadbeef_etc_passwd.png".data) = some ("image".data) := by
  refine ⟨?_, by decide, by decide⟩
  intro u hu
  cases hpu : processUpload tok req.media_file with
  | error e =>
    simp only [new_post, hpu] at hu
    exact absurd hu (List.not_mem_nil u)
  | ok ur =>
    have hw : (new_post tok req).filesWritten = ur.written := by
      simp only [new_post, hpu]
      split <;> rfl
    rw [hw] at hu
    rcases processUpload_ok_shape tok req.media_file ur hpu with h0 | ⟨fn, t, hmf, hne, hall, hur⟩
    · rw [h0] at hu
      exact absurd hu (List.not_mem_nil u)
    · rw [hur] at hu
      have hueq : u = tok ++ '_' :: secure_filename fn := List.mem_singleton.mp hu
      refine ⟨⟨fn, hmf, hall, hueq⟩, ?_⟩
      rw [hueq]
      intro hsl
      rcases List.mem_append.mp hsl with hsl1 | hsl2
      · exact absurd (htok '/' hsl1) (by decide)
      · rcases List.mem_cons.mp hsl2 with h1 | h2
        · exact absurd h1 (by decide)
        · exact absurd (mem_secure_filename_safe h2) (by decide)

/-- C4 witness: the stored name of the passwd.png scenario contains no path
separator. -/
theorem C4_stored_names_witness :
    ('/' : Char) ∉ "deadbeef_etc_passwd.png".data :=
  ((C4_stored_names ("deadbeef".data)
      ⟨some ("t".data), none, none, some ("../../etc/passwd.png".data)⟩
      (by decide)).1 ("deadbeef_etc_passwd.png".data) (by decide)).2

/-- C7: every POST /new outcome is either a redirect to the listing page or a
200 form render carrying an error message — exceptions included — and the
redirect happens exactly when a Post row was persisted. -/
theorem C7_response_policy (tok : List Char) (req : CreateRequest) :
    ((new_post tok req).response = .redirectHome ∨
      ∃ m, (new_post tok req).response = .formPage (some m)) ∧
    ((new_post tok req).response = .redirectHome ↔
      (new_post tok req).persisted ≠ none) := by
  cases hpu : processUpload tok req.media_file with
  | error e =>
    have hr : new_post tok req = ⟨.formPage (some (FAILURE_MSG e)), none, []⟩ := by
      simp [new_post, hpu]
    rw [hr]
    refine ⟨Or.inr ⟨_, rfl⟩, by simp⟩
  | ok u =>
    cases hc : truthy req.title && (truthy req.content || truthy u.media_filename) with
    | true =>
      have hr : new_post tok req =
          ⟨.redirectHome,
           some ⟨req.title, applyTopicDefault req.topic, req.content,
                 u.media_type, u.media_filename⟩,
           u.written⟩ := by
        simp [new_post, hpu, hc]
      rw [hr]
      exact ⟨Or.inl rfl, by simp⟩
    | false =>
      have hr : new_post tok req = ⟨.formPage (some VALIDATION_MSG), none, u.written⟩ := by
        simp [new_post, hpu, hc]
      rw [hr]
      refine ⟨Or.inr ⟨_, rfl⟩, by simp⟩

/-- C7 witness: at a concrete valid request the response is the redirect and
a row is persisted. -/
theorem C7_response_policy_witness :
    (new_post ("ab".data) ⟨some ("t".data), none, some ("c".data), none⟩).response =
      .redirectHome ↔
    (new_post ("ab".data) ⟨some ("t".data), none, some ("c".data), none⟩).persisted ≠ none :=
  (C7_response_policy ("ab".data) ⟨some ("t".data), none, some ("c".data), none⟩).2

/-- C8 as stated is false: a topic submitted as the empty string is persisted
as the empty string, not as the default category label. -/
theorem C8_counterexample :
    (new_post ("deadbeef".data) ⟨some ("t".data), some [], some ("c".data), none⟩).persisted =
      some ⟨some ("t".data), [], some ("c".data), none, none⟩ ∧
    ([] : List Char) ≠ "生活".data := by
  refine ⟨by decide, by decide⟩

/-- C8 amended: the persisted topic is the default label exactly when the
field was omitted from the form; any submitted value, the empty string
included, is stored as given. -/
theorem C8_topic_default (tok : List Char) (req : CreateRequest) (p : PostRecord)
    (hp : (new_post tok req).persisted = some p) :
    (req.topic = none → p.topic = "生活".data) ∧
    (∀ t, req.topic = some t → p.topic = t) := by
  cases hpu : processUpload tok req.media_file with
  | error e =>
    simp only [new_post, hpu] at hp
    injection hp
  | ok u =>
    simp only [new_post, hpu] at hp
    split at hp
    · injection hp with h2
      constructor
      · intro h0
        rw [← h2]
        show applyTopicDefault req.topic = _
        rw [h0]
        rfl
      · intro t htop
        rw [← h2]
        show applyTopicDefault req.topic = t
        rw [htop]
        rfl
    · injection hp

/-- C8 witness: a request omitting the topic persists the default label. -/
theorem C8_topic_default_witness :
    (⟨some ("t".data), "生活".data, some ("c".data), none, none⟩ : PostRecord).topic =
      "生活".data :=
  (C8_topic_default ("ab".data) ⟨some ("t".data), none, some ("c".data), none⟩
    ⟨some ("t".data), "生活".data, some ("c".data), none, none⟩ (by decide)).1 rfl

end EEStudyLog
